import Mathlib

/-!
Shallow embedding of src/blivedm.py (class BLiveClient): the wire-protocol
framing and dispatch layer of a bilibili live-chat client.

Bytes are modelled as Lists of Nats (each byte a value below 256), Python byte
strings as List Nat, Python str as List Char, JSON values as the inductive
JValue.  Python exceptions are modelled with Except PyErr; the while-loop of
_handle_message, which need not terminate, is modelled with explicit fuel
(a result of none means the fuel ran out, i.e. the loop has not finished).
-/

/-- JSON values as produced by Python json.loads / consumed by json.dumps.
Object fields are kept in insertion order, as Python dicts do.  Floating
point numbers are outside the scope of this development; the integer
fragment is modelled. -/
inductive JValue where
  | null
  | bool (b : Bool)
  | num (n : Int)
  | str (s : List Char)
  | arr (l : List JValue)
  | obj (l : List (List Char × JValue))

/-- Opening brace character (written by code point to keep it out of literals). -/
def lbraceC : Char := Char.ofNat 123

/-- Closing brace character. -/
def rbraceC : Char := Char.ofNat 125

/-- Decimal digits of a natural number, most significant first (fuel-based so
that it reduces definitionally; fuel n+1 always suffices). -/
def natCharsAux : Nat → Nat → List Char
  | 0, _ => []
  | f + 1, n => if n < 10 then [Char.ofNat (48 + n)]
      else natCharsAux f (n / 10) ++ [Char.ofNat (48 + n % 10)]

/-- Decimal representation of a Nat, e.g. 0 to the one-character list 0. -/
def natChars (n : Nat) : List Char := natCharsAux (n + 1) n

/-- Decimal representation of an Int, with a leading minus sign when negative;
this is how Python json.dumps prints int values. -/
def intChars (i : Int) : List Char :=
  if i < 0 then '-' :: natChars i.natAbs else natChars i.natAbs

/-- String escaping of json.dumps restricted to the fragment used by this
protocol: the quote and backslash characters are escaped.  (Python
additionally escapes control and non-ASCII characters as \uXXXX sequences;
payloads in this development stay inside printable ASCII.) -/
def escapeChars : List Char → List Char
  | [] => []
  | c :: rest =>
    if c = '"' then '\\' :: '"' :: escapeChars rest
    else if c = '\\' then '\\' :: '\\' :: escapeChars rest
    else c :: escapeChars rest

/-- A JSON string literal: quote, escaped body, quote. -/
def quoteChars (s : List Char) : List Char := '"' :: (escapeChars s ++ ['"'])

mutual
/-- Model of Python json.dumps with its default arguments (item separator
comma-space, key separator colon-space, insertion-ordered dict keys),
restricted to the integer/ASCII fragment described at JValue. -/
def jsonDumps : JValue → List Char
  | JValue.null => ['n', 'u', 'l', 'l']
  | JValue.bool true => ['t', 'r', 'u', 'e']
  | JValue.bool false => ['f', 'a', 'l', 's', 'e']
  | JValue.num i => intChars i
  | JValue.str s => quoteChars s
  | JValue.arr l => '[' :: (jsonDumpsItems l ++ [']'])
  | JValue.obj l => lbraceC :: (jsonDumpsPairs l ++ [rbraceC])

/-- Array elements joined by comma-space. -/
def jsonDumpsItems : List JValue → List Char
  | [] => []
  | [v] => jsonDumps v
  | v :: rest => jsonDumps v ++ (',' :: ' ' :: jsonDumpsItems rest)

/-- Object members, each a quoted key, colon-space, value, joined by
comma-space. -/
def jsonDumpsPairs : List (List Char × JValue) → List Char
  | [] => []
  | [(k, v)] => quoteChars k ++ (':' :: ' ' :: jsonDumps v)
  | (k, v) :: rest =>
      quoteChars k ++ (':' :: ' ' :: jsonDumps v) ++ (',' :: ' ' :: jsonDumpsPairs rest)
end

/-- JSON insignificant whitespace, as accepted by json.loads. -/
def isJsonWs (c : Char) : Bool := c = ' ' ∨ c = '\t' ∨ c = '\n' ∨ c = '\r'

/-- Drop leading JSON whitespace. -/
def skipWs : List Char → List Char
  | [] => []
  | c :: rest => if isJsonWs c then skipWs rest else c :: rest

/-- Value of a decimal digit character, none for non-digits. -/
def digitVal (c : Char) : Option Nat :=
  if 48 ≤ c.toNat ∧ c.toNat ≤ 57 then some (c.toNat - 48) else none

/-- Greedily parse a non-empty run of decimal digits. -/
def parseNatChars : Nat → List Char → Option (Nat × List Char)
  | acc, c :: rest =>
    match digitVal c with
    | some d =>
      match parseNatChars (10 * acc + d) rest with
      | some r => some r
      | none => some (10 * acc + d, rest)
    | none => none
  | _, [] => none

/-- Parse a JSON integer (optional minus sign, digits). -/
def parseIntChars : List Char → Option (Int × List Char)
  | '-' :: rest =>
    match parseNatChars 0 rest with
    | some (n, r) => some (-(n : Int), r)
    | none => none
  | s =>
    match parseNatChars 0 s with
    | some (n, r) => some ((n : Int), r)
    | none => none

/-- Parse the body of a JSON string literal after the opening quote, up to and
consuming the closing quote; quote and backslash escapes are understood. -/
def parseStringBody : List Char → Option (List Char × List Char)
  | [] => none
  | c :: rest =>
    if c = '"' then some ([], rest)
    else if c = '\\' then
      match rest with
      | e :: rest2 =>
        if e = '"' ∨ e = '\\' then
          match parseStringBody rest2 with
          | some (cs, r) => some (e :: cs, r)
          | none => none
        else none
      | [] => none
    else
      match parseStringBody rest with
      | some (cs, r) => some (c :: cs, r)
      | none => none

mutual
/-- Recursive-descent parser for a JSON value, fuel-based.  Together with
parseItems/parsePairs this models Python json.loads on the fragment
described at JValue (null, booleans, integers, strings with quote and
backslash escapes, arrays, objects, insignificant whitespace).  Returns the
parsed value and the unconsumed rest. -/
def parseVal : Nat → List Char → Option (JValue × List Char)
  | 0, _ => none
  | fuel + 1, s =>
    match skipWs s with
    | [] => none
    | c :: rest =>
      if c = 'n' then
        match rest with
        | 'u' :: 'l' :: 'l' :: r => some (JValue.null, r)
        | _ => none
      else if c = 't' then
        match rest with
        | 'r' :: 'u' :: 'e' :: r => some (JValue.bool true, r)
        | _ => none
      else if c = 'f' then
        match rest with
        | 'a' :: 'l' :: 's' :: 'e' :: r => some (JValue.bool false, r)
        | _ => none
      else if c = '"' then
        match parseStringBody rest with
        | some (cs, r) => some (JValue.str cs, r)
        | none => none
      else if c = '[' then
        match skipWs rest with
        | ']' :: r => some (JValue.arr [], r)
        | s2 =>
          match parseItems fuel s2 with
          | some (l, r) => some (JValue.arr l, r)
          | none => none
      else if c = lbraceC then
        match skipWs rest with
        | d :: r =>
          if d = rbraceC then some (JValue.obj [], r)
          else
            match parsePairs fuel (d :: r) with
            | some (l, r2) => some (JValue.obj l, r2)
            | none => none
        | [] => none
      else
        match parseIntChars (c :: rest) with
        | some (i, r) => some (JValue.num i, r)
        | none => none

/-- One or more comma-separated array elements followed by a closing bracket. -/
def parseItems : Nat → List Char → Option (List JValue × List Char)
  | 0, _ => none
  | fuel + 1, s =>
    match parseVal fuel s with
    | some (v, r) =>
      (match skipWs r with
       | ',' :: r2 =>
         match parseItems fuel r2 with
         | some (l, r3) => some (v :: l, r3)
         | none => none
       | ']' :: r2 => some ([v], r2)
       | _ => none)
    | none => none

/-- One or more comma-separated object members followed by a closing brace. -/
def parsePairs : Nat → List Char → Option (List (List Char × JValue) × List Char)
  | 0, _ => none
  | fuel + 1, s =>
    match skipWs s with
    | '"' :: r =>
      (match parseStringBody r with
       | some (k, r2) =>
         (match skipWs r2 with
          | ':' :: r3 =>
            (match parseVal fuel r3 with
             | some (v, r4) =>
               (match skipWs r4 with
                | ',' :: r5 =>
                  (match parsePairs fuel r5 with
                   | some (l, r6) => some ((k, v) :: l, r6)
                   | none => none)
                | d :: r5 =>
                  if d = rbraceC then some ([(k, v)], r5) else none
                | [] => none)
             | none => none)
          | _ => none)
       | none => none)
    | _ => none
end

/-- Model of Python json.loads on a string: parse one JSON value, then require
that only whitespace remains.  none models a raised
json.JSONDecodeError. -/
def jsonLoads (s : List Char) : Option JValue :=
  match parseVal (s.length + 1) s with
  | some (v, r) => match skipWs r with
    | [] => some v
    | _ => none
  | none => none

/-- Model of bytes.decode for the ASCII fragment this development stays in:
bytes below 128 decode to the corresponding characters; anything else is
treated as a decode failure (none models a raised UnicodeDecodeError).
Python json.dumps with its default ensure_ascii=True only ever produces
ASCII, so encoded payloads always fall inside this fragment. -/
def utf8Decode (b : List Nat) : Option (List Char) :=
  if b.all (fun x => x < 128) then some (b.map Char.ofNat) else none

/-- Model of str.encode for ASCII strings: each character to its code point. -/
def utf8Encode (s : List Char) : List Nat := s.map Char.toNat

/-- Composition used on COMMAND bodies: bytes.decode followed by json.loads;
none when either stage raises. -/
def jsonLoadsBytes (b : List Nat) : Option JValue :=
  match utf8Decode b with
  | some s => jsonLoads s
  | none => none

/-- int.from_bytes(l, 'big'): big-endian value of a byte string; the empty
byte string yields 0. -/
def fromBytesBE (l : List Nat) : Nat := l.foldl (fun acc b => 256 * acc + b) 0

/-- Big-endian byte string of width k for the value n (n modulo 256 to the k).
This is how struct.pack lays out an in-range unsigned field; struct.pack
raises struct.error on out-of-range values, so theorems about packing carry
the corresponding range hypotheses. -/
def writeBE : Nat → Nat → List Nat
  | 0, _ => []
  | k + 1, n => writeBE k (n / 256) ++ [n % 256]

/-- Operation.SEND_HEARTBEAT (src/blivedm.py:13). -/
def Operation.SEND_HEARTBEAT : Nat := 2
/-- Operation.POPULARITY (src/blivedm.py:14). -/
def Operation.POPULARITY : Nat := 3
/-- Operation.COMMAND (src/blivedm.py:15). -/
def Operation.COMMAND : Nat := 5
/-- Operation.AUTH (src/blivedm.py:16). -/
def Operation.AUTH : Nat := 7
/-- Operation.RECV_HEARTBEAT (src/blivedm.py:17). -/
def Operation.RECV_HEARTBEAT : Nat := 8

/-- HeaderTuple (src/blivedm.py:25): the five fields of the 16-byte frame
header, in wire order, as unpacked by struct '>I2H2I'. -/
structure HeaderTuple where
  total_len : Nat
  header_len : Nat
  proto_ver : Nat
  operation : Nat
  sequence : Nat
deriving DecidableEq

/-- HEADER_STRUCT.unpack_from(message, offset) (src/blivedm.py:84): reads the
five big-endian header fields at the given offset; none models the raised
struct.error when fewer than 16 bytes remain at the offset. -/
def unpack_from (msg : List Nat) (off : Nat) : Option HeaderTuple :=
  if off + 16 ≤ msg.length then
    some ⟨fromBytesBE ((msg.drop off).take 4),
          fromBytesBE ((msg.drop (off + 4)).take 2),
          fromBytesBE ((msg.drop (off + 6)).take 2),
          fromBytesBE ((msg.drop (off + 8)).take 4),
          fromBytesBE ((msg.drop (off + 12)).take 4)⟩
  else none

/-- _make_packet(data, operation) (src/blivedm.py:55-64): json.dumps the
payload, encode it to bytes, prepend the packed 16-byte header
(total_len = 16 + body length, header_len = 16, proto_ver = 1, the given
operation, sequence = 1). -/
def make_packet (data : JValue) (operation : Nat) : List Nat :=
  writeBE 4 (16 + (utf8Encode (jsonDumps data)).length) ++ writeBE 2 16 ++
    writeBE 2 1 ++ writeBE 4 operation ++ writeBE 4 1 ++ utf8Encode (jsonDumps data)

/-- Python exceptions that the modelled code can raise. -/
inductive PyErr where
  | keyError
  | indexError
  | typeError
  | unicodeDecodeError
  | jsonDecodeError
deriving DecidableEq

/-- Observable effects of processing frames: the hook invocations
_on_get_popularity and _on_get_danmaku, the unknown-command print
(src/blivedm.py:129), and a byte string actually written to the websocket. -/
inductive Event where
  | popularity (n : Nat)
  | danmaku (content user : JValue)
  | unknownCmd (v : JValue)
  | socketSend (pkt : List Nat)

/-- Python dict lookup on a JSON object's (insertion-ordered, duplicate-free)
field list. -/
def lookupKey : List (List Char × JValue) → List Char → Option JValue
  | [], _ => none
  | (k, v) :: rest, key => if k == key then some v else lookupKey rest key

/-- Python equality test of a JSON value against a string literal, as in
cmd == 'DANMU_MSG': true exactly when the value is that string. -/
def isStr (v : JValue) (s : List Char) : Bool :=
  match v with
  | JValue.str t => t == s
  | _ => false

/-- Python subscription x[i] with a non-negative int i: list indexing (raising
IndexError past the end), string indexing (yielding a one-character
string), dict subscription by an int key (raising KeyError, since all keys
here are strings), TypeError on anything else. -/
def subscriptNat (v : JValue) (i : Nat) : Except PyErr JValue :=
  match v with
  | JValue.arr l =>
    match l.get? i with
    | some x => Except.ok x
    | none => Except.error PyErr.indexError
  | JValue.str s =>
    match s.get? i with
    | some c => Except.ok (JValue.str [c])
    | none => Except.error PyErr.indexError
  | JValue.obj _ => Except.error PyErr.keyError
  | _ => Except.error PyErr.typeError

def cmdKey : List Char := ['c', 'm', 'd']
def infoKey : List Char := ['i', 'n', 'f', 'o']
def danmuCmd : List Char := "DANMU_MSG".data
def sendGiftCmd : List Char := "SEND_GIFT".data
def welcomeCmd : List Char := "WELCOME".data
def preparingCmd : List Char := "PREPARING".data
def liveCmd : List Char := "LIVE".data

mutual
/-- _handle_command(command) (src/blivedm.py:104-129): recursively flatten
lists; otherwise read command['cmd'] (KeyError when absent, TypeError when
the value is not subscriptable by a string) and dispatch: DANMU_MSG invokes
the danmaku hook with command['info'][1] and command['info'][2][1];
SEND_GIFT, WELCOME, PREPARING and LIVE are recognized no-ops; anything else
prints the unknown command.  Returns the hook events in order, or the
first raised exception. -/
def handle_command : JValue → Except PyErr (List Event)
  | JValue.arr l => handle_command_list l
  | JValue.obj fields =>
    (match lookupKey fields cmdKey with
     | none => Except.error PyErr.keyError
     | some cmdv =>
       if isStr cmdv danmuCmd then
         match lookupKey fields infoKey with
         | none => Except.error PyErr.keyError
         | some info =>
           match subscriptNat info 1 with
           | Except.error e => Except.error e
           | Except.ok content =>
             match subscriptNat info 2 with
             | Except.error e => Except.error e
             | Except.ok second =>
               match subscriptNat second 1 with
               | Except.error e => Except.error e
               | Except.ok user => Except.ok [Event.danmaku content user]
       else if isStr cmdv sendGiftCmd then Except.ok []
       else if isStr cmdv welcomeCmd then Except.ok []
       else if isStr cmdv preparingCmd then Except.ok []
       else if isStr cmdv liveCmd then Except.ok []
       else Except.ok [Event.unknownCmd (JValue.obj fields)])
  | JValue.str _ => Except.error PyErr.typeError
  | _ => Except.error PyErr.typeError

/-- The for-loop of _handle_command over a list (src/blivedm.py:106-107):
each element in original order through handle_command, stopping at the
first exception, concatenating the events. -/
def handle_command_list : List JValue → Except PyErr (List Event)
  | [] => Except.ok []
  | c :: rest =>
    match handle_command c with
    | Except.error e => Except.error e
    | Except.ok evs =>
      match handle_command_list rest with
      | Except.error e => Except.error e
      | Except.ok evs2 => Except.ok (evs ++ evs2)
end

/-- Effects of the websocket.send coroutine when (and only when) it is
awaited: one frame written to the socket. -/
def websocketSendEffects (pkt : List Nat) : List Event := [Event.socketSend pkt]

/-- Model of awaiting _send_heartbeat (src/blivedm.py:76-78).  Its body
evaluates self._websocket.send(self._make_packet(..., SEND_HEARTBEAT))
without await: the send coroutine is created and immediately discarded, so
its effects never run (Python only warns that the coroutine was never
awaited), and awaiting _send_heartbeat itself contributes no events.  The
discarded coroutine is kept in a let-binding to record which packet would
have been sent had the call been awaited. -/
def send_heartbeat_effects : List Event :=
  let _discarded := websocketSendEffects (make_packet (JValue.obj []) Operation.SEND_HEARTBEAT)
  []

/-- The body slice message[offset + 16 : offset + total_len] taken by the
COMMAND branch (src/blivedm.py:95), which is also the body of the frame
beginning at the given offset in the sense of the decode direction of the
Packet Codec.  Python slice semantics: clamped at the end of the buffer,
empty when the stop index is at or before the start index. -/
def frameBody (msg : List Nat) (off tl : Nat) : List Nat :=
  (msg.drop (off + 16)).take (tl - 16)

/-- One iteration body of the while-loop of _handle_message
(src/blivedm.py:88-100), after the header was unpacked at the given
offset: the per-operation dispatch.  POPULARITY reads the big-endian value
of message[offset+16 : offset+20] (independent of total_len, clamped by
slice semantics); COMMAND decodes and json.loads the body slice and hands
it to _handle_command (either stage may raise); RECV_HEARTBEAT awaits
_send_heartbeat; every other operation does nothing. -/
def dispatch_frame (msg : List Nat) (off : Nat) (h : HeaderTuple) : Except PyErr (List Event) :=
  if h.operation = Operation.POPULARITY then
    Except.ok [Event.popularity (fromBytesBE ((msg.drop (off + 16)).take 4))]
  else if h.operation = Operation.COMMAND then
    match utf8Decode (frameBody msg off h.total_len) with
    | none => Except.error PyErr.unicodeDecodeError
    | some s =>
      match jsonLoads s with
      | none => Except.error PyErr.jsonDecodeError
      | some v => handle_command v
  else if h.operation = Operation.RECV_HEARTBEAT then
    Except.ok send_heartbeat_effects
  else Except.ok []

/-- One frame as processed by a completed run of _handle_message: the offset
it started at, its unpacked header, and the events its dispatch produced. -/
structure FrameRec where
  offset : Nat
  header : HeaderTuple
  events : List Event

/-- The while-loop of _handle_message (src/blivedm.py:80-102), fuel-based:
while offset < len(message), unpack a header at offset (breaking out of the
loop on struct.error), dispatch the frame (any exception propagates), then
advance offset by total_len.  none means the fuel was exhausted before the
loop finished; a completed run returns the processed frames in order and
the final offset, or the first raised exception. -/
def handle_message_loop (msg : List Nat) : Nat → Nat → Option (Except PyErr (List FrameRec × Nat))
  | _, 0 => none
  | off, fuel + 1 =>
    if off < msg.length then
      match unpack_from msg off with
      | none => some (Except.ok ([], off))
      | some h =>
        match dispatch_frame msg off h with
        | Except.error e => some (Except.error e)
        | Except.ok evs =>
          match handle_message_loop msg (off + h.total_len) fuel with
          | none => none
          | some (Except.error e) => some (Except.error e)
          | some (Except.ok (rest, fin)) => some (Except.ok (⟨off, h, evs⟩ :: rest, fin))
    else some (Except.ok ([], off))

/-- _handle_message(message) (src/blivedm.py:80-102) run from offset 0. -/
def handle_message (msg : List Nat) (fuel : Nat) : Option (Except PyErr (List FrameRec × Nat)) :=
  handle_message_loop msg 0 fuel

/-- The loop of _handle_message terminates on this message: some finite fuel
completes the run (normally or with a raised exception). -/
def handle_message_terminates (msg : List Nat) : Prop :=
  ∃ fuel, (handle_message_loop msg 0 fuel).isSome

/-- One frame in the decode direction of the Packet Codec: starting offset,
header, body bytes. -/
structure RawFrame where
  offset : Nat
  header : HeaderTuple
  body : List Nat

/-- The header-parse skeleton of the while-loop of _handle_message
(src/blivedm.py:80-102) with the per-operation dispatch omitted: the frames
(offset, header, body slice) that the loop walks over, in order.  This is
the decode direction of the Packet Codec. -/
def decode_frames (msg : List Nat) : Nat → Nat → List RawFrame
  | _, 0 => []
  | off, fuel + 1 =>
    if off < msg.length then
      match unpack_from msg off with
      | none => []
      | some h => ⟨off, h, frameBody msg off h.total_len⟩ :: decode_frames msg (off + h.total_len) fuel
    else []

/-- decode(buffer): frames extracted from offset 0.  Fuel of length + 1
truncates nothing that a terminating run would produce. -/
def decode (msg : List Nat) : List RawFrame := decode_frames msg 0 (msg.length + 1)

/-! ### Helper lemmas about bytes and slices -/

theorem writeBE_length (k n : Nat) : (writeBE k n).length = k := by
  induction k generalizing n with
  | zero => simp [writeBE]
  | succ k ih => simp [writeBE, ih]

theorem fromBytesBE_append_one (xs : List Nat) (b : Nat) :
    fromBytesBE (xs ++ [b]) = 256 * fromBytesBE xs + b := by
  simp [fromBytesBE, List.foldl_append]

theorem fromBytesBE_writeBE (k n : Nat) : fromBytesBE (writeBE k n) = n % 256 ^ k := by
  induction k generalizing n with
  | zero => simp [writeBE, fromBytesBE, Nat.mod_one]
  | succ k ih =>
    rw [writeBE, fromBytesBE_append_one, ih]
    have h : n % (256 * 256 ^ k) = n % 256 + 256 * (n / 256 % 256 ^ k) := Nat.mod_mul
    have hp : (256 : Nat) ^ (k + 1) = 256 * 256 ^ k := by rw [pow_succ, Nat.mul_comm]
    rw [hp, h]
    omega

theorem take_append_len {α : Type} (l₁ l₂ : List α) (n : Nat) (h : l₁.length = n) :
    (l₁ ++ l₂).take n = l₁ := by
  subst h; exact List.take_left _ _

theorem drop_append_len {α : Type} (l₁ l₂ : List α) (n : Nat) (h : l₁.length = n) :
    (l₁ ++ l₂).drop n = l₂ := by
  subst h; exact List.drop_left _ _

theorem make_packet_length (p : JValue) (o : Nat) :
    (make_packet p o).length = 16 + (utf8Encode (jsonDumps p)).length := by
  simp [make_packet, writeBE_length]
  omega

/-- Unpacking a header at the start of an encoded packet (with anything
appended after it) recovers exactly the packed fields, for in-range values. -/
theorem unpack_from_make_packet (p : JValue) (o : Nat) (rest : List Nat)
    (ho : o < 2 ^ 32)
    (hlen : 16 + (utf8Encode (jsonDumps p)).length < 2 ^ 32) :
    unpack_from (make_packet p o ++ rest) 0 =
      some ⟨16 + (utf8Encode (jsonDumps p)).length, 16, 1, o, 1⟩ := by
  set body := utf8Encode (jsonDumps p) with hbody
  set tl := 16 + body.length with htl
  have e0 : make_packet p o ++ rest =
      writeBE 4 tl ++ (writeBE 2 16 ++ (writeBE 2 1 ++ (writeBE 4 o ++ (writeBE 4 1 ++ (body ++ rest))))) := by
    simp [make_packet, List.append_assoc, ← hbody, ← htl]
  have e4 : make_packet p o ++ rest =
      (writeBE 4 tl ++ writeBE 2 16) ++ (writeBE 2 1 ++ (writeBE 4 o ++ (writeBE 4 1 ++ (body ++ rest)))) := by
    simp [make_packet, List.append_assoc, ← hbody, ← htl]
  have e6 : make_packet p o ++ rest =
      (writeBE 4 tl ++ writeBE 2 16 ++ writeBE 2 1) ++ (writeBE 4 o ++ (writeBE 4 1 ++ (body ++ rest))) := by
    simp [make_packet, List.append_assoc, ← hbody, ← htl]
  have e8 : make_packet p o ++ rest =
      (writeBE 4 tl ++ writeBE 2 16 ++ writeBE 2 1 ++ writeBE 4 o) ++ (writeBE 4 1 ++ (body ++ rest)) := by
    simp [make_packet, List.append_assoc, ← hbody, ← htl]
  have e12 : make_packet p o ++ rest =
      (writeBE 4 tl ++ writeBE 2 16 ++ writeBE 2 1 ++ writeBE 4 o) ++ (writeBE 4 1 ++ (body ++ rest)) := by
    simp [make_packet, List.append_assoc, ← hbody, ← htl]
  have hlen16 : 0 + 16 ≤ (make_packet p o ++ rest).length := by
    simp [List.length_append, make_packet_length, ← hbody]
    omega
  rw [unpack_from, if_pos hlen16]
  have f0 : ((make_packet p o ++ rest).drop 0).take 4 = writeBE 4 tl := by
    rw [List.drop_zero, e0]
    exact take_append_len _ _ _ (writeBE_length 4 tl)
  have f4 : ((make_packet p o ++ rest).drop (0 + 4)).take 2 = writeBE 2 16 := by
    rw [Nat.zero_add, e0, drop_append_len _ _ 4 (writeBE_length 4 tl)]
    exact take_append_len _ _ _ (writeBE_length 2 16)
  have f6 : ((make_packet p o ++ rest).drop (0 + 6)).take 2 = writeBE 2 1 := by
    rw [Nat.zero_add, e4, drop_append_len _ _ 6 (by simp [writeBE_length])]
    exact take_append_len _ _ _ (writeBE_length 2 1)
  have f8 : ((make_packet p o ++ rest).drop (0 + 8)).take 4 = writeBE 4 o := by
    rw [Nat.zero_add, e6, drop_append_len _ _ 8 (by simp [writeBE_length])]
    exact take_append_len _ _ _ (writeBE_length 4 o)
  have f12 : ((make_packet p o ++ rest).drop (0 + 12)).take 4 = writeBE 4 1 := by
    rw [Nat.zero_add, e12, drop_append_len _ _ 12 (by simp [writeBE_length])]
    exact take_append_len _ _ _ (writeBE_length 4 1)
  rw [f0, f4, f6, f8, f12]
  have vtl : fromBytesBE (writeBE 4 tl) = tl := by
    rw [fromBytesBE_writeBE]
    exact Nat.mod_eq_of_lt (by norm_num; omega)
  have vo : fromBytesBE (writeBE 4 o) = o := by
    rw [fromBytesBE_writeBE]
    exact Nat.mod_eq_of_lt (by norm_num; omega)
  have v16 : fromBytesBE (writeBE 2 16) = 16 := rfl
  have v1 : fromBytesBE (writeBE 2 1) = 1 := rfl
  have v1b : fromBytesBE (writeBE 4 1) = 1 := rfl
  rw [vtl, vo, v16, v1, v1b]

/-- The body slice of an encoded packet (with anything appended) is exactly
the encoded payload. -/
theorem frameBody_make_packet (p : JValue) (o : Nat) (rest : List Nat) :
    frameBody (make_packet p o ++ rest) 0 (16 + (utf8Encode (jsonDumps p)).length) =
      utf8Encode (jsonDumps p) := by
  set body := utf8Encode (jsonDumps p) with hbody
  have e16 : make_packet p o ++ rest =
      (writeBE 4 (16 + body.length) ++ writeBE 2 16 ++ writeBE 2 1 ++ writeBE 4 o ++ writeBE 4 1) ++
        (body ++ rest) := by
    simp [make_packet, List.append_assoc, ← hbody]
  rw [frameBody, Nat.zero_add, e16, drop_append_len _ _ 16 (by simp [writeBE_length])]
  have : 16 + body.length - 16 = body.length := by omega
  rw [this]
  exact take_append_len _ _ _ rfl

/-! ### Helper lemmas about the decode and dispatch loops -/

theorem decode_frames_stop (msg : List Nat) (off fuel : Nat) (h : msg.length ≤ off) :
    decode_frames msg off fuel = [] := by
  cases fuel with
  | zero => rfl
  | succ f => simp [decode_frames, show ¬off < msg.length by omega]

theorem decode_frames_step (msg : List Nat) (off fuel : Nat) (h : HeaderTuple)
    (hoff : off < msg.length) (hu : unpack_from msg off = some h) :
    decode_frames msg off (fuel + 1) =
      ⟨off, h, frameBody msg off h.total_len⟩ :: decode_frames msg (off + h.total_len) fuel := by
  simp [decode_frames, hoff, hu]

theorem handle_message_loop_stop (msg : List Nat) (off fuel : Nat) (h : msg.length ≤ off) :
    handle_message_loop msg off (fuel + 1) = some (Except.ok ([], off)) := by
  simp [handle_message_loop, show ¬off < msg.length by omega]

/-- Every frame recorded by a completed run of the loop was unpacked at its
offset and dispatched to exactly its events. -/
theorem handle_message_loop_frames_sound (msg : List Nat) :
    ∀ fuel off frames fin,
      handle_message_loop msg off fuel = some (Except.ok (frames, fin)) →
      ∀ r : FrameRec, r ∈ frames →
        unpack_from msg r.offset = some r.header ∧
          dispatch_frame msg r.offset r.header = Except.ok r.events := by
  intro fuel
  induction fuel with
  | zero => intro off frames fin h; simp [handle_message_loop] at h
  | succ f ih =>
    intro off frames fin h r hr
    rw [handle_message_loop] at h
    by_cases hoff : off < msg.length
    · rw [if_pos hoff] at h
      cases hu : unpack_from msg off with
      | none =>
        rw [hu] at h
        simp at h
        rw [h.1] at hr
        simp at hr
      | some hd =>
        cases hdisp : dispatch_frame msg off hd with
        | error e => simp only [hu, hdisp] at h; simp at h
        | ok evs =>
          cases hrec : handle_message_loop msg (off + hd.total_len) f with
          | none => simp only [hu, hdisp, hrec] at h; simp at h
          | some res =>
            cases res with
            | error e => simp only [hu, hdisp, hrec] at h; simp at h
            | ok pr =>
              obtain ⟨rest, fin2⟩ := pr
              simp only [hu, hdisp, hrec] at h
              simp at h
              obtain ⟨hfr, hfin⟩ := h
              rw [← hfr] at hr
              cases hr with
              | head => exact ⟨hu, hdisp⟩
              | tail _ hmem => exact ih (off + hd.total_len) rest fin2 hrec r hmem
    · rw [if_neg hoff] at h
      simp at h
      rw [h.1] at hr
      simp at hr

/-- A completed, exception-free run of the loop ends with the offset at or
past the end of the message, or with fewer than 16 bytes remaining at it. -/
theorem handle_message_loop_final (msg : List Nat) :
    ∀ fuel off frames fin,
      handle_message_loop msg off fuel = some (Except.ok (frames, fin)) →
      msg.length ≤ fin ∨ (fin < msg.length ∧ msg.length < fin + 16) := by
  intro fuel
  induction fuel with
  | zero => intro off frames fin h; simp [handle_message_loop] at h
  | succ f ih =>
    intro off frames fin h
    rw [handle_message_loop] at h
    by_cases hoff : off < msg.length
    · rw [if_pos hoff] at h
      cases hu : unpack_from msg off with
      | none =>
        rw [hu] at h
        simp at h
        right
        refine ⟨by omega, ?_⟩
        have : ¬off + 16 ≤ msg.length := by
          intro hle
          rw [unpack_from, if_pos hle] at hu
          simp at hu
        omega
      | some hd =>
        cases hdisp : dispatch_frame msg off hd with
        | error e => simp only [hu, hdisp] at h; simp at h
        | ok evs =>
          cases hrec : handle_message_loop msg (off + hd.total_len) f with
          | none => simp only [hu, hdisp, hrec] at h; simp at h
          | some res =>
            cases res with
            | error e => simp only [hu, hdisp, hrec] at h; simp at h
            | ok pr =>
              obtain ⟨rest, fin2⟩ := pr
              simp only [hu, hdisp, hrec] at h
              simp at h
              obtain ⟨hfr, hfin⟩ := h
              rw [← hfin]
              exact ih (off + hd.total_len) rest fin2 hrec
    · rw [if_neg hoff] at h
      simp at h
      omega

/-- When every header that can be unpacked anywhere in the message claims a
positive total_len, fuel exceeding the remaining length completes the
loop. -/
theorem handle_message_loop_isSome (msg : List Nat)
    (hpos : ∀ off h, unpack_from msg off = some h → 1 ≤ h.total_len) :
    ∀ fuel off, msg.length - off < fuel → (handle_message_loop msg off fuel).isSome := by
  intro fuel
  induction fuel with
  | zero => intro off h; omega
  | succ f ih =>
    intro off hlt
    rw [handle_message_loop]
    by_cases hoff : off < msg.length
    · rw [if_pos hoff]
      cases hu : unpack_from msg off with
      | none => simp
      | some hd =>
        cases hdisp : dispatch_frame msg off hd with
        | error e => simp only [hdisp]; simp
        | ok evs =>
          have htl := hpos off hd hu
          have hin : msg.length - (off + hd.total_len) < f := by omega
          have hsome := ih (off + hd.total_len) hin
          cases hrec : handle_message_loop msg (off + hd.total_len) f with
          | none => rw [hrec] at hsome; simp at hsome
          | some res => cases res with
            | error e => simp only [hdisp, hrec]; simp
            | ok pr => simp only [hdisp, hrec]; simp
    · rw [if_neg hoff]
      simp

theorem unpack_from_some_le (msg : List Nat) (off : Nat) (h : HeaderTuple)
    (hu : unpack_from msg off = some h) : off + 16 ≤ msg.length := by
  by_contra hc
  rw [unpack_from, if_neg hc] at hu
  simp at hu

/-! ### Claims -/

/-- A 16-byte buffer holding only a header that claims total_len = 100
(operation POPULARITY): the partially-contained frame. -/
def c1msg : List Nat := [0, 0, 0, 100, 0, 16, 0, 1, 0, 0, 0, 3, 0, 0, 0, 1]

/-- Claim C1 counterexample: on a buffer whose single header claims a
total_len (100) exceeding the remaining length (16), the loop does NOT stop
before the partially-contained frame: the POPULARITY handler is invoked
(with value 0 from the empty slice), contradicting the claim that no
handler is invoked for that frame and that only fully-contained frames are
processed. -/
theorem claim_C1_counterexample :
    handle_message_loop c1msg 0 2 =
      some (Except.ok ([⟨0, ⟨100, 16, 1, 3, 1⟩, [Event.popularity 0]⟩], 100)) := rfl

/-- Claim C1, amended: when a parsed header's claimed total_len exceeds the
bytes remaining from that offset, the loop still dispatches that frame on
its truncated body (the handler runs, and for a COMMAND frame the dispatch
may raise), and then stops because the offset advances past the end of the
buffer; only the loop's break on a header shorter than 16 bytes stops
processing without dispatching. -/
theorem claim_C1_amended_thm (msg : List Nat) (off fuel : Nat) (h : HeaderTuple)
    (hu : unpack_from msg off = some h)
    (hover : msg.length < off + h.total_len) :
    handle_message_loop msg off (fuel + 2) =
      some ((dispatch_frame msg off h).map
        (fun evs => ([FrameRec.mk off h evs], off + h.total_len))) := by
  have h16 := unpack_from_some_le msg off h hu
  have hoff : off < msg.length := by omega
  rw [handle_message_loop, if_pos hoff]
  simp only [hu]
  cases hdisp : dispatch_frame msg off h with
  | error e => simp [Except.map]
  | ok evs =>
    have hstop := handle_message_loop_stop msg (off + h.total_len) fuel (by omega)
    simp only [hstop]
    simp [Except.map]

/-- Claim C1 witness: the amended theorem applied to the concrete c1msg. -/
theorem claim_C1_witness :
    unpack_from c1msg 0 = some ⟨100, 16, 1, 3, 1⟩ ∧
      c1msg.length < 0 + (100 : Nat) ∧
      handle_message_loop c1msg 0 2 =
        some ((dispatch_frame c1msg 0 ⟨100, 16, 1, 3, 1⟩).map
          (fun evs => ([FrameRec.mk 0 ⟨100, 16, 1, 3, 1⟩ evs], 0 + 100))) :=
  ⟨rfl, by decide, claim_C1_amended_thm c1msg 0 0 ⟨100, 16, 1, 3, 1⟩ rfl (by decide)⟩

/-- A 16-byte buffer of zeros: its header claims total_len = 0. -/
def c2msg : List Nat := [0, 0, 0, 0, 0, 0, 0, 0, 0, 0, 0, 0, 0, 0, 0, 0]

theorem c2msg_loop_none : ∀ fuel, handle_message_loop c2msg 0 fuel = none := by
  intro fuel
  induction fuel with
  | zero => rfl
  | succ f ih =>
    rw [handle_message_loop]
    have hoff : (0 : Nat) < c2msg.length := by decide
    rw [if_pos hoff]
    have hu : unpack_from c2msg 0 = some ⟨0, 0, 0, 0, 0⟩ := rfl
    simp only [hu]
    have hdisp : dispatch_frame c2msg 0 ⟨0, 0, 0, 0, 0⟩ = Except.ok [] := rfl
    simp only [hdisp]
    have h0 : (0 : Nat) + (HeaderTuple.mk 0 0 0 0 0).total_len = 0 := rfl
    rw [h0, ih]

/-- Claim C2 counterexample: a 16-byte buffer of zeros parses as a header with
total_len = 0, so the offset never advances and the loop of _handle_message
never terminates, contradicting the claim that it terminates on every
finite buffer. -/
theorem claim_C2_counterexample : ¬ handle_message_terminates c2msg := by
  rintro ⟨fuel, hsome⟩
  rw [c2msg_loop_none fuel] at hsome
  simp at hsome

/-- Claim C2, amended: on every buffer all of whose parsable headers claim a
positive total_len, the loop terminates with fuel length + 1; and whenever
a run completes without a raised exception, the final offset is at or past
the buffer length, or has fewer than 16 bytes remaining at it. -/
theorem claim_C2_amended_thm (msg : List Nat)
    (hpos : ∀ off h, unpack_from msg off = some h → 1 ≤ h.total_len) :
    (handle_message_loop msg 0 (msg.length + 1)).isSome ∧
      ∀ frames fin, handle_message_loop msg 0 (msg.length + 1) = some (Except.ok (frames, fin)) →
        msg.length ≤ fin ∨ (fin < msg.length ∧ msg.length < fin + 16) := by
  constructor
  · exact handle_message_loop_isSome msg hpos (msg.length + 1) 0 (by omega)
  · intro frames fin h
    exact handle_message_loop_final msg (msg.length + 1) 0 frames fin h

/-- A 20-byte buffer holding one well-formed POPULARITY frame
(total_len 20, body 0x00 0x00 0x00 0x64): headers are parsable at offsets 0
through 4, each claiming a positive total_len. -/
def c2wmsg : List Nat := [0, 0, 0, 20, 0, 16, 0, 1, 0, 0, 0, 3, 0, 0, 0, 1, 0, 0, 0, 100]

theorem total_len_pos_of_unpack_eq (msg : List Nat) (off : Nat) (h hd : HeaderTuple)
    (hu : unpack_from msg off = some h) (he : unpack_from msg off = some hd)
    (hp : 1 ≤ hd.total_len) : 1 ≤ h.total_len := by
  rw [hu] at he
  rw [Option.some.inj he]
  exact hp

/-- Claim C2 witness: the amended theorem applied to a buffer holding a real
frame.  The positivity hypothesis is discharged at every offset where a
header actually parses (0 through 4, none vacuous), the loop completes by
stepping over the frame - the run is exhibited, producing the popularity
event - and the final offset 20 satisfies the claimed stopping
condition. -/
theorem claim_C2_witness :
    (∀ off h, unpack_from c2wmsg off = some h → 1 ≤ h.total_len) ∧
      (handle_message_loop c2wmsg 0 (c2wmsg.length + 1)).isSome ∧
      handle_message_loop c2wmsg 0 (c2wmsg.length + 1) =
        some (Except.ok ([⟨0, ⟨20, 16, 1, 3, 1⟩, [Event.popularity 100]⟩], 20)) ∧
      (c2wmsg.length ≤ 20 ∨ (20 < c2wmsg.length ∧ c2wmsg.length < 20 + 16)) := by
  have hpos : ∀ off h, unpack_from c2wmsg off = some h → 1 ≤ h.total_len := by
    intro off h hu
    have hle := unpack_from_some_le _ _ _ hu
    have hlen : c2wmsg.length = 20 := rfl
    have hoff : off ≤ 4 := by omega
    interval_cases off <;>
      exact total_len_pos_of_unpack_eq _ _ _ _ hu rfl (by decide)
  refine ⟨hpos, (claim_C2_amended_thm c2wmsg hpos).1, rfl, ?_⟩
  exact (claim_C2_amended_thm c2wmsg hpos).2
    [⟨0, ⟨20, 16, 1, 3, 1⟩, [Event.popularity 100]⟩] 20 rfl

/-- A COMMAND frame whose one-byte body is the letter x (not valid JSON),
followed by a well-formed POPULARITY frame. -/
def c3msg : List Nat :=
  [0, 0, 0, 17, 0, 16, 0, 1, 0, 0, 0, 5, 0, 0, 0, 1, 120] ++
    [0, 0, 0, 20, 0, 16, 0, 1, 0, 0, 0, 3, 0, 0, 0, 1, 0, 0, 0, 100]

/-- Claim C3 counterexample: a message whose first frame is a COMMAND frame
with a malformed JSON body followed by a further frame makes
_handle_message raise: the run ends with the JSON decode error instead of
skipping the frame and processing the rest, contradicting the claim that a
warning is reported, the single frame is skipped, and no error reaches the
caller. -/
theorem claim_C3_counterexample :
    handle_message_loop c3msg 0 3 = some (Except.error PyErr.jsonDecodeError) := rfl

/-- Claim C3, amended: a COMMAND frame whose body fails UTF-8/JSON decoding
makes the loop raise the decode error out of _handle_message at that frame;
the frame is not skipped, no warning path exists, and no later frame of the
message is processed. -/
theorem claim_C3_amended_thm (msg : List Nat) (off fuel : Nat) (h : HeaderTuple)
    (hu : unpack_from msg off = some h)
    (hop : h.operation = Operation.COMMAND)
    (hbad : jsonLoadsBytes (frameBody msg off h.total_len) = none) :
    ∃ e, handle_message_loop msg off (fuel + 1) = some (Except.error e) := by
  have h16 := unpack_from_some_le msg off h hu
  have hoff : off < msg.length := by omega
  have hdisp : ∃ e, dispatch_frame msg off h = Except.error e := by
    rw [dispatch_frame, hop]
    rw [if_neg (by simp [Operation.COMMAND, Operation.POPULARITY])]
    rw [if_pos rfl]
    cases hdec : utf8Decode (frameBody msg off h.total_len) with
    | none => exact ⟨PyErr.unicodeDecodeError, by simp⟩
    | some s =>
      have hjl : jsonLoads s = none := by
        rw [jsonLoadsBytes, hdec] at hbad
        exact hbad
      exact ⟨PyErr.jsonDecodeError, by simp [hjl]⟩
  obtain ⟨e, he⟩ := hdisp
  refine ⟨e, ?_⟩
  rw [handle_message_loop, if_pos hoff]
  simp only [hu, he]

/-- A COMMAND frame whose one-byte body is an opening brace: valid UTF-8 but
not valid JSON. -/
def c3wmsg : List Nat := [0, 0, 0, 17, 0, 16, 0, 1, 0, 0, 0, 5, 0, 0, 0, 1, 123]

/-- Claim C3 witness: the amended theorem applied to the concrete c3wmsg. -/
theorem claim_C3_witness :
    unpack_from c3wmsg 0 = some ⟨17, 16, 1, 5, 1⟩ ∧
      (HeaderTuple.mk 17 16 1 5 1).operation = Operation.COMMAND ∧
      jsonLoadsBytes (frameBody c3wmsg 0 17) = none ∧
      ∃ e, handle_message_loop c3wmsg 0 1 = some (Except.error e) :=
  ⟨rfl, rfl, rfl, claim_C3_amended_thm c3wmsg 0 0 ⟨17, 16, 1, 5, 1⟩ rfl rfl rfl⟩

/-- A message holding exactly one RECV_HEARTBEAT frame (total_len 16, no
body). -/
def c8msg : List Nat := [0, 0, 0, 16, 0, 16, 0, 1, 0, 0, 0, 8, 0, 0, 0, 1]

/-- Claim C8, evaluated at the failing input: dispatching an inbound
RECV_HEARTBEAT frame produces NO socket write at all (the frame's event
list is empty, and awaiting _send_heartbeat contributes no events),
because _send_heartbeat calls self._websocket.send(...) without await and
the send coroutine is discarded unrun.  The claimed reply heartbeat frame
is never sent. -/
theorem claim_C8_thm :
    handle_message_loop c8msg 0 2 =
        some (Except.ok ([⟨0, ⟨16, 16, 1, 8, 1⟩, []⟩], 16)) ∧
      send_heartbeat_effects = [] :=
  ⟨rfl, rfl⟩

/-- Claim C9: a JSON object with no cmd field makes _handle_command raise
KeyError at command['cmd']; it does not reach the unrecognized-command
print path (no events, no result at all - the exception propagates). -/
theorem claim_C9_thm (fields : List (List Char × JValue))
    (hnone : lookupKey fields cmdKey = none) :
    handle_command (JValue.obj fields) = Except.error PyErr.keyError := by
  simp [handle_command, hnone]

/-- Claim C9 witness: the theorem applied to an object with a single non-cmd
field. -/
theorem claim_C9_witness :
    lookupKey [(infoKey, JValue.null)] cmdKey = none ∧
      handle_command (JValue.obj [(infoKey, JValue.null)]) = Except.error PyErr.keyError :=
  ⟨rfl, claim_C9_thm [(infoKey, JValue.null)] rfl⟩

/-- Claim C10: in any completed run of _handle_message, every frame whose
header claims operation POPULARITY produced exactly one popularity event
whose value is the big-endian reading of the raw message bytes
[offset+16, offset+20) - an expression independent of the header's
total_len, clamped by slice semantics - and when no such bytes exist the
value is 0 (no error is raised). -/
theorem claim_C10_thm (msg : List Nat) (fuel : Nat) (frames : List FrameRec) (fin : Nat)
    (hrun : handle_message_loop msg 0 fuel = some (Except.ok (frames, fin)))
    (r : FrameRec) (hmem : r ∈ frames)
    (hop : r.header.operation = Operation.POPULARITY) :
    r.events = [Event.popularity (fromBytesBE ((msg.drop (r.offset + 16)).take 4))] ∧
      (msg.length ≤ r.offset + 16 → r.events = [Event.popularity 0]) := by
  obtain ⟨hu, hdisp⟩ := handle_message_loop_frames_sound msg fuel 0 frames fin hrun r hmem
  rw [dispatch_frame, hop, if_pos rfl] at hdisp
  have hev : r.events = [Event.popularity (fromBytesBE ((msg.drop (r.offset + 16)).take 4))] := by
    exact (Except.ok.inj hdisp).symm
  refine ⟨hev, fun hle => ?_⟩
  have hdrop : msg.drop (r.offset + 16) = [] := List.drop_eq_nil_of_le hle
  rw [hev, hdrop]
  simp [fromBytesBE]

/-- A single POPULARITY frame with body 0x00 0x00 0x00 0x64. -/
def c10msg : List Nat := [0, 0, 0, 20, 0, 16, 0, 1, 0, 0, 0, 3, 0, 0, 0, 1, 0, 0, 0, 100]

/-- Claim C10 witness: the theorem applied to a completed run over a concrete
POPULARITY frame, whose popularity value is 100. -/
theorem claim_C10_witness :
    handle_message_loop c10msg 0 2 =
        some (Except.ok ([⟨0, ⟨20, 16, 1, 3, 1⟩, [Event.popularity 100]⟩], 20)) ∧
      (FrameRec.mk 0 ⟨20, 16, 1, 3, 1⟩ [Event.popularity 100]).header.operation =
        Operation.POPULARITY ∧
      (FrameRec.mk 0 ⟨20, 16, 1, 3, 1⟩ [Event.popularity 100]).events =
        [Event.popularity (fromBytesBE ((c10msg.drop (0 + 16)).take 4))] :=
  ⟨rfl, rfl,
    (claim_C10_thm c10msg 2 [⟨0, ⟨20, 16, 1, 3, 1⟩, [Event.popularity 100]⟩] 20 rfl
      ⟨0, ⟨20, 16, 1, 3, 1⟩, [Event.popularity 100]⟩ (List.Mem.head _) rfl).1⟩

theorem drop_append_add {α : Type} (a b : List α) (k : Nat) :
    (a ++ b).drop (a.length + k) = b.drop k := by
  rw [← List.drop_drop, List.drop_left]

theorem unpack_from_append_left (a b : List Nat) :
    unpack_from (a ++ b) a.length = unpack_from b 0 := by
  rw [unpack_from, unpack_from]
  by_cases hb : 0 + 16 ≤ b.length
  · rw [if_pos hb, if_pos (by simp [List.length_append]; omega)]
    have f0 : (a ++ b).drop a.length = b := List.drop_left a b
    have f4 : (a ++ b).drop (a.length + 4) = b.drop 4 := drop_append_add a b 4
    have f6 : (a ++ b).drop (a.length + 6) = b.drop 6 := drop_append_add a b 6
    have f8 : (a ++ b).drop (a.length + 8) = b.drop 8 := drop_append_add a b 8
    have f12 : (a ++ b).drop (a.length + 12) = b.drop 12 := drop_append_add a b 12
    rw [f0, f4, f6, f8, f12, List.drop_zero]
  · rw [if_neg hb, if_neg (by simp [List.length_append]; omega)]

theorem frameBody_append_left (a b : List Nat) (tl : Nat) :
    frameBody (a ++ b) a.length tl = frameBody b 0 tl := by
  rw [frameBody, frameBody, Nat.zero_add, drop_append_add]

/-- Claim C4: decoding an encoded packet yields exactly one frame whose header
carries total_len = 16 + body length, header_len = 16, proto_ver = 1, the
given operation, sequence = 1, and whose body is the UTF-8 JSON encoding of
the payload.  The range hypotheses are the in-range conditions under which
struct.pack accepts the packed values. -/
theorem claim_C4_thm (p : JValue) (o : Nat) (ho : o < 2 ^ 32)
    (hlen : 16 + (utf8Encode (jsonDumps p)).length < 2 ^ 32) :
    decode (make_packet p o) =
      [⟨0, ⟨16 + (utf8Encode (jsonDumps p)).length, 16, 1, o, 1⟩,
        utf8Encode (jsonDumps p)⟩] := by
  set body := utf8Encode (jsonDumps p) with hbody
  have hlenp : (make_packet p o).length = 16 + body.length := make_packet_length p o
  have hu : unpack_from (make_packet p o) 0 = some ⟨16 + body.length, 16, 1, o, 1⟩ := by
    have h := unpack_from_make_packet p o [] ho hlen
    rw [List.append_nil] at h
    exact h
  have hfb : frameBody (make_packet p o) 0 (16 + body.length) = body := by
    have h := frameBody_make_packet p o []
    rw [List.append_nil] at h
    exact h
  rw [decode, hlenp]
  rw [decode_frames_step (make_packet p o) 0 (16 + body.length) ⟨16 + body.length, 16, 1, o, 1⟩
    (by omega) hu]
  have hstop : decode_frames (make_packet p o)
      (0 + (HeaderTuple.mk (16 + body.length) 16 1 o 1).total_len) (16 + body.length) = [] := by
    apply decode_frames_stop
    rw [hlenp]
    show 16 + body.length ≤ 0 + (16 + body.length)
    omega
  rw [hstop]
  have htl : (HeaderTuple.mk (16 + body.length) 16 1 o 1).total_len = 16 + body.length := rfl
  rw [htl, hfb]

/-- Claim C4 witness: the theorem applied to payload null with operation
AUTH = 7; the encoded body is the four bytes of the text null. -/
theorem claim_C4_witness :
    (7 : Nat) < 2 ^ 32 ∧
      16 + (utf8Encode (jsonDumps JValue.null)).length < 2 ^ 32 ∧
      decode (make_packet JValue.null 7) =
        [⟨0, ⟨20, 16, 1, 7, 1⟩, [110, 117, 108, 108]⟩] :=
  ⟨by decide, by decide, claim_C4_thm JValue.null 7 (by decide) (by decide)⟩

/-- Claim C7: decoding the concatenation of two encoded packets yields exactly
the two frames, in order: first the frame of (p1, o1) at offset 0, then the
frame of (p2, o2) at the offset right after the first packet. -/
theorem claim_C7_thm (p1 p2 : JValue) (o1 o2 : Nat)
    (ho1 : o1 < 2 ^ 32) (ho2 : o2 < 2 ^ 32)
    (hl1 : 16 + (utf8Encode (jsonDumps p1)).length < 2 ^ 32)
    (hl2 : 16 + (utf8Encode (jsonDumps p2)).length < 2 ^ 32) :
    decode (make_packet p1 o1 ++ make_packet p2 o2) =
      [⟨0, ⟨16 + (utf8Encode (jsonDumps p1)).length, 16, 1, o1, 1⟩,
        utf8Encode (jsonDumps p1)⟩,
       ⟨16 + (utf8Encode (jsonDumps p1)).length,
        ⟨16 + (utf8Encode (jsonDumps p2)).length, 16, 1, o2, 1⟩,
        utf8Encode (jsonDumps p2)⟩] := by
  set b1 := utf8Encode (jsonDumps p1) with hb1
  set b2 := utf8Encode (jsonDumps p2) with hb2
  set msg := make_packet p1 o1 ++ make_packet p2 o2 with hmsg
  have hp1len : (make_packet p1 o1).length = 16 + b1.length := make_packet_length p1 o1
  have hp2len : (make_packet p2 o2).length = 16 + b2.length := make_packet_length p2 o2
  have hL : msg.length = 32 + b1.length + b2.length := by
    rw [hmsg, List.length_append, hp1len, hp2len]
    omega
  have hu1 : unpack_from msg 0 = some ⟨16 + b1.length, 16, 1, o1, 1⟩ := by
    rw [hmsg]
    exact unpack_from_make_packet p1 o1 (make_packet p2 o2) ho1 hl1
  have hfb1 : frameBody msg 0 (16 + b1.length) = b1 := by
    rw [hmsg]
    exact frameBody_make_packet p1 o1 (make_packet p2 o2)
  have hu2 : unpack_from msg (16 + b1.length) = some ⟨16 + b2.length, 16, 1, o2, 1⟩ := by
    rw [hmsg, ← hp1len, unpack_from_append_left]
    have h := unpack_from_make_packet p2 o2 [] ho2 hl2
    rw [List.append_nil] at h
    exact h
  have hfb2 : frameBody msg (16 + b1.length) (16 + b2.length) = b2 := by
    rw [hmsg, ← hp1len, frameBody_append_left]
    have h := frameBody_make_packet p2 o2 []
    rw [List.append_nil] at h
    exact h
  rw [decode, hL]
  rw [decode_frames_step msg 0 (32 + b1.length + b2.length) ⟨16 + b1.length, 16, 1, o1, 1⟩
    (by omega) hu1]
  have hoffeq : (0 : Nat) + (HeaderTuple.mk (16 + b1.length) 16 1 o1 1).total_len =
      16 + b1.length := by
    simp
  rw [hoffeq]
  have hfuel : 32 + b1.length + b2.length = (31 + b1.length + b2.length) + 1 := by omega
  rw [hfuel]
  rw [decode_frames_step msg (16 + b1.length) (31 + b1.length + b2.length)
    ⟨16 + b2.length, 16, 1, o2, 1⟩ (by omega) hu2]
  have hstop : decode_frames msg
      ((16 + b1.length) + (HeaderTuple.mk (16 + b2.length) 16 1 o2 1).total_len)
      (31 + b1.length + b2.length) = [] := by
    apply decode_frames_stop
    have htl2 : (HeaderTuple.mk (16 + b2.length) 16 1 o2 1).total_len = 16 + b2.length := rfl
    rw [htl2]
    omega
  rw [hstop]
  have ht1 : (HeaderTuple.mk (16 + b1.length) 16 1 o1 1).total_len = 16 + b1.length := rfl
  have ht2 : (HeaderTuple.mk (16 + b2.length) 16 1 o2 1).total_len = 16 + b2.length := rfl
  rw [ht1, ht2, hfb1, hfb2]

/-- Claim C7 witness: the theorem applied to null with operation 7 followed by
the empty object with operation 2. -/
theorem claim_C7_witness :
    (7 : Nat) < 2 ^ 32 ∧ (2 : Nat) < 2 ^ 32 ∧
      16 + (utf8Encode (jsonDumps JValue.null)).length < 2 ^ 32 ∧
      16 + (utf8Encode (jsonDumps (JValue.obj []))).length < 2 ^ 32 ∧
      decode (make_packet JValue.null 7 ++ make_packet (JValue.obj []) 2) =
        [⟨0, ⟨20, 16, 1, 7, 1⟩, [110, 117, 108, 108]⟩,
         ⟨20, ⟨18, 16, 1, 2, 1⟩, [123, 125]⟩] :=
  ⟨by decide, by decide, by decide, by decide,
    claim_C7_thm JValue.null (JValue.obj []) 7 2 (by decide) (by decide) (by decide) (by decide)⟩

/-- Claim C5: _handle_command processes a list by recursive application of
itself to each element in original order (error short-circuiting, events
concatenated in order), the empty batch dispatches nothing, and a
singleton batch is fully flattened: wrapping any value - including another
list, at any depth - in a one-element list leaves its processing unchanged;
in particular three commands dispatch exactly three times, in order. -/
theorem claim_C5_thm :
    (handle_command (JValue.arr []) = Except.ok []) ∧
      (∀ v rest, handle_command (JValue.arr (v :: rest)) =
        match handle_command v with
        | Except.error e => Except.error e
        | Except.ok evs =>
          match handle_command (JValue.arr rest) with
          | Except.error e => Except.error e
          | Except.ok evs2 => Except.ok (evs ++ evs2)) ∧
      (∀ v, handle_command (JValue.arr [v]) = handle_command v) ∧
      (∀ v1 v2 v3 e1 e2 e3,
        handle_command v1 = Except.ok e1 → handle_command v2 = Except.ok e2 →
        handle_command v3 = Except.ok e3 →
        handle_command (JValue.arr [v1, v2, v3]) = Except.ok (e1 ++ e2 ++ e3)) := by
  refine ⟨rfl, ?_, ?_, ?_⟩
  · intro v rest
    rfl
  · intro v
    cases hv : handle_command v with
    | error e => simp [handle_command, handle_command_list, hv]
    | ok evs => simp [handle_command, handle_command_list, hv]
  · intro v1 v2 v3 e1 e2 e3 h1 h2 h3
    simp [handle_command, handle_command_list, h1, h2, h3]

def c5cmd1 : JValue := JValue.obj [(cmdKey, JValue.str danmuCmd),
  (infoKey, JValue.arr [JValue.num 0, JValue.str ['a'], JValue.arr [JValue.num 0, JValue.str ['A']]])]
def c5cmd2 : JValue := JValue.obj [(cmdKey, JValue.str danmuCmd),
  (infoKey, JValue.arr [JValue.num 0, JValue.str ['b'], JValue.arr [JValue.num 0, JValue.str ['B']]])]
def c5cmd3 : JValue := JValue.obj [(cmdKey, JValue.str danmuCmd),
  (infoKey, JValue.arr [JValue.num 0, JValue.str ['c'], JValue.arr [JValue.num 0, JValue.str ['C']]])]

/-- Claim C5 witness: three concrete command objects dispatch exactly three
danmaku events, in original order. -/
theorem claim_C5_witness :
    handle_command c5cmd1 = Except.ok [Event.danmaku (JValue.str ['a']) (JValue.str ['A'])] ∧
      handle_command c5cmd2 = Except.ok [Event.danmaku (JValue.str ['b']) (JValue.str ['B'])] ∧
      handle_command c5cmd3 = Except.ok [Event.danmaku (JValue.str ['c']) (JValue.str ['C'])] ∧
      handle_command (JValue.arr [c5cmd1, c5cmd2, c5cmd3]) =
        Except.ok ([Event.danmaku (JValue.str ['a']) (JValue.str ['A'])] ++
          [Event.danmaku (JValue.str ['b']) (JValue.str ['B'])] ++
          [Event.danmaku (JValue.str ['c']) (JValue.str ['C'])]) :=
  ⟨rfl, rfl, rfl,
    claim_C5_thm.2.2.2 c5cmd1 c5cmd2 c5cmd3 _ _ _ rfl rfl rfl⟩

/-- Claim C6: a command object whose cmd is the string DANMU_MSG and whose
info field is a list with the required positional structure makes
_handle_command invoke the danmaku hook with content = info[1] and
username = info[2][1]. -/
theorem claim_C6_thm (fields : List (List Char × JValue)) (l m : List JValue)
    (content user : JValue)
    (hcmd : lookupKey fields cmdKey = some (JValue.str danmuCmd))
    (hinfo : lookupKey fields infoKey = some (JValue.arr l))
    (h1 : l[1]? = some content)
    (h2 : l[2]? = some (JValue.arr m))
    (hu : m[1]? = some user) :
    handle_command (JValue.obj fields) = Except.ok [Event.danmaku content user] := by
  simp [handle_command, hcmd, hinfo, isStr, subscriptNat, h1, h2, hu]

def c6inner : List JValue := [JValue.num 0, JValue.str "Alice".data]
def c6info : List JValue :=
  [JValue.num 0, JValue.str "hello world".data, JValue.arr c6inner]
def c6fields : List (List Char × JValue) :=
  [(cmdKey, JValue.str danmuCmd), (infoKey, JValue.arr c6info)]

/-- Claim C6 witness: the theorem applied to
info = [0, "hello world", [0, "Alice"]]; the hook receives
("hello world", "Alice"). -/
theorem claim_C6_witness :
    lookupKey c6fields cmdKey = some (JValue.str danmuCmd) ∧
      lookupKey c6fields infoKey = some (JValue.arr c6info) ∧
      c6info[1]? = some (JValue.str "hello world".data) ∧
      c6info[2]? = some (JValue.arr c6inner) ∧
      c6inner[1]? = some (JValue.str "Alice".data) ∧
      handle_command (JValue.obj c6fields) =
        Except.ok [Event.danmaku (JValue.str "hello world".data) (JValue.str "Alice".data)] :=
  ⟨rfl, rfl, rfl, rfl, rfl,
    claim_C6_thm c6fields c6info c6inner (JValue.str "hello world".data)
      (JValue.str "Alice".data) rfl rfl rfl rfl rfl⟩
